import Mathlib

/-!
Verification development for the `printer` module of the `xh` HTTP CLI
(`src/printer.rs`).  The module renders HTTP request/response headers and
bodies to an output sink, with optional JSON reformatting, syntax
highlighting, streaming decode, and binary/multipart suppression.

The embedding represents byte streams as `List Nat` (each element < 256 in
intended use), decoded text as lists of Unicode code points, and the output
sink as a trace of write events.
-/

namespace XhPrinter

abbrev Bytes := List Nat

/-! ## Streaming charset decoding (`decode_stream`, `Response::text`)

The streaming path wraps the body reader in a `DecodeReaderBytes` driven by
an `encoding_rs` decoder; the buffered path calls `Response::text()`, which
performs a whole-buffer lossy decode with the same encoding-resolution
logic (the resolution code in `decode_stream` is copied from `reqwest`).
We model the incremental decoder as a byte-at-a-time state machine
(the WHATWG UTF-8 decoder implemented by `encoding_rs`), and the buffered
decode as a direct recursive maximal-subpart lossy parser.
-/

/-- State of the incremental UTF-8 decoder: which prefix of a multi-byte
sequence is pending, the accumulated code-point bits, and (for the first
continuation byte of a 3- or 4-byte sequence) the allowed byte range. -/
inductive Utf8State
  | ground
  | two (cp : Nat)
  | threeOne (cp lo hi : Nat)
  | threeTwo (cp : Nat)
  | fourOne (cp lo hi : Nat)
  | fourTwo (cp : Nat)
  | fourThree (cp : Nat)
deriving DecidableEq, Repr

/-- One byte examined from the ground state (no pending sequence). -/
def stepGround (b : Nat) : Utf8State × List Nat :=
  if b < 0x80 then (.ground, [b])
  else if 0xC2 ≤ b ∧ b ≤ 0xDF then (.two (b - 0xC0), [])
  else if 0xE0 ≤ b ∧ b ≤ 0xEF then
    (.threeOne (b - 0xE0) (if b = 0xE0 then 0xA0 else 0x80) (if b = 0xED then 0x9F else 0xBF), [])
  else if 0xF0 ≤ b ∧ b ≤ 0xF4 then
    (.fourOne (b - 0xF0) (if b = 0xF0 then 0x90 else 0x80) (if b = 0xF4 then 0x8F else 0xBF), [])
  else (.ground, [0xFFFD])

/-- One byte of the incremental WHATWG UTF-8 decoder.  An out-of-range byte
in the middle of a sequence emits U+FFFD for the maximal subpart and
reprocesses the byte from the ground state. -/
def step : Utf8State → Nat → Utf8State × List Nat
  | .ground, b => stepGround b
  | .two cp, b =>
    if 0x80 ≤ b ∧ b ≤ 0xBF then (.ground, [cp * 64 + (b - 0x80)])
    else
      let g := stepGround b
      (g.1, 0xFFFD :: g.2)
  | .threeOne cp lo hi, b =>
    if lo ≤ b ∧ b ≤ hi then (.threeTwo (cp * 64 + (b - 0x80)), [])
    else
      let g := stepGround b
      (g.1, 0xFFFD :: g.2)
  | .threeTwo cp, b =>
    if 0x80 ≤ b ∧ b ≤ 0xBF then (.ground, [cp * 64 + (b - 0x80)])
    else
      let g := stepGround b
      (g.1, 0xFFFD :: g.2)
  | .fourOne cp lo hi, b =>
    if lo ≤ b ∧ b ≤ hi then (.fourTwo (cp * 64 + (b - 0x80)), [])
    else
      let g := stepGround b
      (g.1, 0xFFFD :: g.2)
  | .fourTwo cp, b =>
    if 0x80 ≤ b ∧ b ≤ 0xBF then (.fourThree (cp * 64 + (b - 0x80)), [])
    else
      let g := stepGround b
      (g.1, 0xFFFD :: g.2)
  | .fourThree cp, b =>
    if 0x80 ≤ b ∧ b ≤ 0xBF then (.ground, [cp * 64 + (b - 0x80)])
    else
      let g := stepGround b
      (g.1, 0xFFFD :: g.2)

/-- End-of-stream: a pending incomplete sequence yields one U+FFFD. -/
def flushState : Utf8State → List Nat
  | .ground => []
  | _ => [0xFFFD]

/-- Feed a chunk of bytes through the incremental decoder. -/
def feedBytes : Utf8State → Bytes → Utf8State × List Nat
  | s, [] => (s, [])
  | s, b :: rest =>
    let p := step s b
    let q := feedBytes p.1 rest
    (q.1, p.2 ++ q.2)

/-- Feed a sequence of chunks, carrying the decoder state across chunk
boundaries (as `DecodeReaderBytes` does across `read` calls). -/
def feedChunks : Utf8State → List Bytes → Utf8State × List Nat
  | s, [] => (s, [])
  | s, c :: rest =>
    let p := feedBytes s c
    let q := feedChunks p.1 rest
    (q.1, p.2 ++ q.2)

/-- The visible code points produced by the streaming UTF-8 decode of a
chunked body. -/
def streamUtf8 (chunks : List Bytes) : List Nat :=
  let p := feedChunks .ground chunks
  p.2 ++ flushState p.1

/-- Modelled from the spec: fully buffering the body and applying a
lossy-UTF-8 decode (`String::from_utf8_lossy` semantics: each maximal
subpart of an ill-formed subsequence is replaced by one U+FFFD). -/
def utf8Lossy : Bytes → List Nat
  | [] => []
  | b :: rest =>
    if b < 0x80 then b :: utf8Lossy rest
    else if 0xC2 ≤ b ∧ b ≤ 0xDF then
      match rest with
      | [] => [0xFFFD]
      | c1 :: rest1 =>
        if 0x80 ≤ c1 ∧ c1 ≤ 0xBF then ((b - 0xC0) * 64 + (c1 - 0x80)) :: utf8Lossy rest1
        else 0xFFFD :: utf8Lossy (c1 :: rest1)
    else if 0xE0 ≤ b ∧ b ≤ 0xEF then
      match rest with
      | [] => [0xFFFD]
      | c1 :: rest1 =>
        if (if b = 0xE0 then 0xA0 else 0x80) ≤ c1 ∧ c1 ≤ (if b = 0xED then 0x9F else 0xBF) then
          match rest1 with
          | [] => [0xFFFD]
          | c2 :: rest2 =>
            if 0x80 ≤ c2 ∧ c2 ≤ 0xBF then
              (((b - 0xE0) * 64 + (c1 - 0x80)) * 64 + (c2 - 0x80)) :: utf8Lossy rest2
            else 0xFFFD :: utf8Lossy (c2 :: rest2)
        else 0xFFFD :: utf8Lossy (c1 :: rest1)
    else if 0xF0 ≤ b ∧ b ≤ 0xF4 then
      match rest with
      | [] => [0xFFFD]
      | c1 :: rest1 =>
        if (if b = 0xF0 then 0x90 else 0x80) ≤ c1 ∧ c1 ≤ (if b = 0xF4 then 0x8F else 0xBF) then
          match rest1 with
          | [] => [0xFFFD]
          | c2 :: rest2 =>
            if 0x80 ≤ c2 ∧ c2 ≤ 0xBF then
              match rest2 with
              | [] => [0xFFFD]
              | c3 :: rest3 =>
                if 0x80 ≤ c3 ∧ c3 ≤ 0xBF then
                  ((((b - 0xF0) * 64 + (c1 - 0x80)) * 64 + (c2 - 0x80)) * 64 + (c3 - 0x80))
                    :: utf8Lossy rest3
                else 0xFFFD :: utf8Lossy (c3 :: rest3)
            else 0xFFFD :: utf8Lossy (c2 :: rest2)
        else 0xFFFD :: utf8Lossy (c1 :: rest1)
    else 0xFFFD :: utf8Lossy rest

/-- Decode from a state and flush at end of stream. -/
def runFrom (s : Utf8State) (bs : Bytes) : List Nat :=
  (feedBytes s bs).2 ++ flushState (feedBytes s bs).1

theorem runFrom_nil (s : Utf8State) : runFrom s [] = flushState s := rfl

theorem runFrom_cons (s : Utf8State) (b : Nat) (rest : Bytes) :
    runFrom s (b :: rest) = (step s b).2 ++ runFrom (step s b).1 rest := by
  simp [runFrom, feedBytes]

theorem sg_ascii (b : Nat) (h : b < 0x80) : step .ground b = (.ground, [b]) := by
  simp [step, stepGround, h]

theorem sg_lead2 (b : Nat) (h1 : ¬ b < 0x80) (h2 : 0xC2 ≤ b ∧ b ≤ 0xDF) :
    step .ground b = (.two (b - 0xC0), []) := by
  simp [step, stepGround, h1, h2]

theorem sg_lead3 (b : Nat) (h1 : ¬ b < 0x80) (h2 : ¬(0xC2 ≤ b ∧ b ≤ 0xDF))
    (h3 : 0xE0 ≤ b ∧ b ≤ 0xEF) :
    step .ground b = (.threeOne (b - 0xE0) (if b = 0xE0 then 0xA0 else 0x80)
      (if b = 0xED then 0x9F else 0xBF), []) := by
  simp [step, stepGround, h1, h2, h3]

theorem sg_lead4 (b : Nat) (h1 : ¬ b < 0x80) (h2 : ¬(0xC2 ≤ b ∧ b ≤ 0xDF))
    (h3 : ¬(0xE0 ≤ b ∧ b ≤ 0xEF)) (h4 : 0xF0 ≤ b ∧ b ≤ 0xF4) :
    step .ground b = (.fourOne (b - 0xF0) (if b = 0xF0 then 0x90 else 0x80)
      (if b = 0xF4 then 0x8F else 0xBF), []) := by
  simp [step, stepGround, h1, h2, h3, h4]

theorem sg_inv (b : Nat) (h1 : ¬ b < 0x80) (h2 : ¬(0xC2 ≤ b ∧ b ≤ 0xDF))
    (h3 : ¬(0xE0 ≤ b ∧ b ≤ 0xEF)) (h4 : ¬(0xF0 ≤ b ∧ b ≤ 0xF4)) :
    step .ground b = (.ground, [0xFFFD]) := by
  simp [step, stepGround, h1, h2, h3, h4]

theorem st_two_ok (cp : Nat) {b : Nat} (h : 0x80 ≤ b ∧ b ≤ 0xBF) :
    step (.two cp) b = (.ground, [cp * 64 + (b - 0x80)]) := by
  simp [step, h]

theorem st_two_inv (cp : Nat) {b : Nat} (h : ¬(0x80 ≤ b ∧ b ≤ 0xBF)) :
    step (.two cp) b = ((step .ground b).1, 0xFFFD :: (step .ground b).2) := by
  simp [step, h]

theorem st_threeOne_ok (cp : Nat) {lo hi b : Nat} (h : lo ≤ b ∧ b ≤ hi) :
    step (.threeOne cp lo hi) b = (.threeTwo (cp * 64 + (b - 0x80)), []) := by
  simp [step, h]

theorem st_threeOne_inv (cp : Nat) {lo hi b : Nat} (h : ¬(lo ≤ b ∧ b ≤ hi)) :
    step (.threeOne cp lo hi) b = ((step .ground b).1, 0xFFFD :: (step .ground b).2) := by
  simp [step, h]

theorem st_threeTwo_ok (cp : Nat) {b : Nat} (h : 0x80 ≤ b ∧ b ≤ 0xBF) :
    step (.threeTwo cp) b = (.ground, [cp * 64 + (b - 0x80)]) := by
  simp [step, h]

theorem st_threeTwo_inv (cp : Nat) {b : Nat} (h : ¬(0x80 ≤ b ∧ b ≤ 0xBF)) :
    step (.threeTwo cp) b = ((step .ground b).1, 0xFFFD :: (step .ground b).2) := by
  simp [step, h]

theorem st_fourOne_ok (cp : Nat) {lo hi b : Nat} (h : lo ≤ b ∧ b ≤ hi) :
    step (.fourOne cp lo hi) b = (.fourTwo (cp * 64 + (b - 0x80)), []) := by
  simp [step, h]

theorem st_fourOne_inv (cp : Nat) {lo hi b : Nat} (h : ¬(lo ≤ b ∧ b ≤ hi)) :
    step (.fourOne cp lo hi) b = ((step .ground b).1, 0xFFFD :: (step .ground b).2) := by
  simp [step, h]

theorem st_fourTwo_ok (cp : Nat) {b : Nat} (h : 0x80 ≤ b ∧ b ≤ 0xBF) :
    step (.fourTwo cp) b = (.fourThree (cp * 64 + (b - 0x80)), []) := by
  simp [step, h]

theorem st_fourTwo_inv (cp : Nat) {b : Nat} (h : ¬(0x80 ≤ b ∧ b ≤ 0xBF)) :
    step (.fourTwo cp) b = ((step .ground b).1, 0xFFFD :: (step .ground b).2) := by
  simp [step, h]

theorem st_fourThree_ok (cp : Nat) {b : Nat} (h : 0x80 ≤ b ∧ b ≤ 0xBF) :
    step (.fourThree cp) b = (.ground, [cp * 64 + (b - 0x80)]) := by
  simp [step, h]

theorem st_fourThree_inv (cp : Nat) {b : Nat} (h : ¬(0x80 ≤ b ∧ b ≤ 0xBF)) :
    step (.fourThree cp) b = ((step .ground b).1, 0xFFFD :: (step .ground b).2) := by
  simp [step, h]

theorem runFrom_ground_eq (bs : Bytes) : runFrom .ground bs = utf8Lossy bs := by
  induction bs using utf8Lossy.induct with
  | case1 =>
      rw [utf8Lossy.eq_def]
      simp [runFrom_nil, flushState]
  | case2 b rest h ih =>
      rw [runFrom_cons, sg_ascii b h]
      conv_rhs => rw [utf8Lossy.eq_def]
      simp [h, ih]
  | case3 b h1 h2 =>
      rw [runFrom_cons, sg_lead2 b h1 h2, utf8Lossy.eq_def]
      simp [h1, h2, runFrom_nil, flushState]
  | case4 b h1 h2 c1 rest1 hc ih =>
      rw [runFrom_cons, sg_lead2 b h1 h2, runFrom_cons, st_two_ok _ hc]
      conv_rhs => rw [utf8Lossy.eq_def]
      simp [h1, h2, hc, ih]
  | case5 b h1 h2 c1 rest1 hc ih =>
      rw [runFrom_cons] at ih
      rw [runFrom_cons, sg_lead2 b h1 h2, runFrom_cons, st_two_inv _ hc]
      conv_rhs => rw [utf8Lossy.eq_def]
      simp [h1, h2, hc, ih]
  | case6 b h1 h2 h3 =>
      rw [runFrom_cons, sg_lead3 b h1 h2 h3, utf8Lossy.eq_def]
      simp [h1, h2, h3, runFrom_nil, flushState]
  | case7 b h1 h2 h3 c1 hc1 =>
      rw [runFrom_cons, sg_lead3 b h1 h2 h3, runFrom_cons, st_threeOne_ok _ hc1,
        utf8Lossy.eq_def]
      simp [h1, h2, h3, hc1, runFrom_nil, flushState]
  | case8 b h1 h2 h3 c1 hc1 c2 rest2 hc2 ih =>
      rw [runFrom_cons, sg_lead3 b h1 h2 h3, runFrom_cons, st_threeOne_ok _ hc1,
        runFrom_cons, st_threeTwo_ok _ hc2]
      conv_rhs => rw [utf8Lossy.eq_def]
      simp [h1, h2, h3, hc1, hc2, ih]
  | case9 b h1 h2 h3 c1 hc1 c2 rest2 hc2 ih =>
      rw [runFrom_cons] at ih
      rw [runFrom_cons, sg_lead3 b h1 h2 h3, runFrom_cons, st_threeOne_ok _ hc1,
        runFrom_cons, st_threeTwo_inv _ hc2]
      conv_rhs => rw [utf8Lossy.eq_def]
      simp [h1, h2, h3, hc1, hc2, ih]
  | case10 b h1 h2 h3 c1 rest1 hc1 ih =>
      rw [runFrom_cons] at ih
      rw [runFrom_cons, sg_lead3 b h1 h2 h3, runFrom_cons, st_threeOne_inv _ hc1]
      conv_rhs => rw [utf8Lossy.eq_def]
      simp [h1, h2, h3, hc1, ih]
  | case11 b h1 h2 h3 h4 =>
      rw [runFrom_cons, sg_lead4 b h1 h2 h3 h4, utf8Lossy.eq_def]
      simp [h1, h2, h3, h4, runFrom_nil, flushState]
  | case12 b h1 h2 h3 h4 c1 hc1 =>
      rw [runFrom_cons, sg_lead4 b h1 h2 h3 h4, runFrom_cons, st_fourOne_ok _ hc1,
        utf8Lossy.eq_def]
      simp [h1, h2, h3, h4, hc1, runFrom_nil, flushState]
  | case13 b h1 h2 h3 h4 c1 hc1 c2 hc2 =>
      rw [runFrom_cons, sg_lead4 b h1 h2 h3 h4, runFrom_cons, st_fourOne_ok _ hc1,
        runFrom_cons, st_fourTwo_ok _ hc2, utf8Lossy.eq_def]
      simp [h1, h2, h3, h4, hc1, hc2, runFrom_nil, flushState]
  | case14 b h1 h2 h3 h4 c1 hc1 c2 hc2 c3 rest3 hc3 ih =>
      rw [runFrom_cons, sg_lead4 b h1 h2 h3 h4, runFrom_cons, st_fourOne_ok _ hc1,
        runFrom_cons, st_fourTwo_ok _ hc2, runFrom_cons, st_fourThree_ok _ hc3]
      conv_rhs => rw [utf8Lossy.eq_def]
      simp [h1, h2, h3, h4, hc1, hc2, hc3, ih]
  | case15 b h1 h2 h3 h4 c1 hc1 c2 hc2 c3 rest3 hc3 ih =>
      rw [runFrom_cons] at ih
      rw [runFrom_cons, sg_lead4 b h1 h2 h3 h4, runFrom_cons, st_fourOne_ok _ hc1,
        runFrom_cons, st_fourTwo_ok _ hc2, runFrom_cons, st_fourThree_inv _ hc3]
      conv_rhs => rw [utf8Lossy.eq_def]
      simp [h1, h2, h3, h4, hc1, hc2, hc3, ih]
  | case16 b h1 h2 h3 h4 c1 hc1 c2 rest2 hc2 ih =>
      rw [runFrom_cons] at ih
      rw [runFrom_cons, sg_lead4 b h1 h2 h3 h4, runFrom_cons, st_fourOne_ok _ hc1,
        runFrom_cons, st_fourTwo_inv _ hc2]
      conv_rhs => rw [utf8Lossy.eq_def]
      simp [h1, h2, h3, h4, hc1, hc2, ih]
  | case17 b h1 h2 h3 h4 c1 rest1 hc1 ih =>
      rw [runFrom_cons] at ih
      rw [runFrom_cons, sg_lead4 b h1 h2 h3 h4, runFrom_cons, st_fourOne_inv _ hc1]
      conv_rhs => rw [utf8Lossy.eq_def]
      simp [h1, h2, h3, h4, hc1, ih]
  | case18 b rest h1 h2 h3 h4 ih =>
      rw [runFrom_cons, sg_inv b h1 h2 h3 h4]
      conv_rhs => rw [utf8Lossy.eq_def]
      simp [h1, h2, h3, h4, ih]

theorem feedBytes_append (s : Utf8State) (xs ys : Bytes) :
    feedBytes s (xs ++ ys) =
      ((feedBytes (feedBytes s xs).1 ys).1,
        (feedBytes s xs).2 ++ (feedBytes (feedBytes s xs).1 ys).2) := by
  induction xs generalizing s with
  | nil => simp [feedBytes]
  | cons b rest ih => simp [feedBytes, ih]

theorem feedChunks_eq_feedBytes_flatten (s : Utf8State) (chunks : List Bytes) :
    feedChunks s chunks = feedBytes s chunks.flatten := by
  induction chunks generalizing s with
  | nil => simp [feedChunks, feedBytes]
  | cons c rest ih => simp [feedChunks, feedBytes_append, ih]

/-- Chunk-boundary invariance plus agreement with the buffered lossy decode,
for UTF-8: the streaming decoder over any chunking equals the maximal-subpart
lossy decode of the full concatenated buffer. -/
theorem streamUtf8_eq_utf8Lossy (chunks : List Bytes) :
    streamUtf8 chunks = utf8Lossy chunks.flatten := by
  have h := runFrom_ground_eq chunks.flatten
  simpa [streamUtf8, feedChunks_eq_feedBytes_flatten, runFrom] using h

/-- Code point assigned to each byte by the windows-1252 decoder (the
encoding `Encoding::for_label` resolves the `latin1`/`iso-8859-1`/`ascii`
family of labels to).  Bytes outside 0x80–0x9F map to themselves. -/
def w1252Byte (b : Nat) : Nat :=
  if b = 0x80 then 0x20AC
  else if b = 0x82 then 0x201A
  else if b = 0x83 then 0x192
  else if b = 0x84 then 0x201E
  else if b = 0x85 then 0x2026
  else if b = 0x86 then 0x2020
  else if b = 0x87 then 0x2021
  else if b = 0x88 then 0x2C6
  else if b = 0x89 then 0x2030
  else if b = 0x8A then 0x160
  else if b = 0x8B then 0x2039
  else if b = 0x8C then 0x152
  else if b = 0x8E then 0x17D
  else if b = 0x91 then 0x2018
  else if b = 0x92 then 0x2019
  else if b = 0x93 then 0x201C
  else if b = 0x94 then 0x201D
  else if b = 0x95 then 0x2022
  else if b = 0x96 then 0x2013
  else if b = 0x97 then 0x2014
  else if b = 0x98 then 0x2DC
  else if b = 0x99 then 0x2122
  else if b = 0x9A then 0x161
  else if b = 0x9B then 0x203A
  else if b = 0x9C then 0x153
  else if b = 0x9E then 0x17E
  else if b = 0x9F then 0x178
  else b

/-- The encodings modelled here: the default UTF-8 and the single-byte
windows-1252 (reached through the latin-1 label family). -/
inductive Charset
  | utf8
  | windows1252
deriving DecidableEq, Repr

def asciiLowerChar (c : Char) : Char :=
  if 'A' ≤ c ∧ c ≤ 'Z' then Char.ofNat (c.toNat + 32) else c

def asciiLower (s : String) : String := ⟨s.data.map asciiLowerChar⟩

def isAsciiWs (c : Char) : Bool :=
  c = ' ' ∨ c = '\t' ∨ c = '\n' ∨ c = '\x0c' ∨ c = '\r'

def trimAsciiWs (s : String) : String :=
  ⟨((s.data.dropWhile isAsciiWs).reverse.dropWhile isAsciiWs).reverse⟩

def utf8Labels : List String :=
  ["unicode-1-1-utf-8", "unicode11utf8", "unicode20utf8", "utf-8", "utf8", "x-unicode20utf8"]

def w1252Labels : List String :=
  ["ansi_x3.4-1968", "ascii", "cp1252", "cp819", "csisolatin1", "ibm819", "iso-8859-1",
   "iso-ir-100", "iso8859-1", "iso88591", "iso_8859-1", "iso_8859-1:1987", "l1", "latin1",
   "us-ascii", "windows-1252", "x-cp1252"]

/-- WHATWG label lookup (`Encoding::for_label`): ASCII-whitespace-trim and
ASCII-lowercase the label, then look it up; unknown labels yield `none`. -/
def forLabel (label : String) : Option Charset :=
  let l := asciiLower (trimAsciiWs label)
  if utf8Labels.contains l then some .utf8
  else if w1252Labels.contains l then some .windows1252
  else none

/-- Encoding resolution shared by `decode_stream` and `Response::text`: an
absent charset parameter defaults to the label `utf-8`, and an unrecognized
label falls back to UTF-8 (`Encoding::for_label(..).unwrap_or(UTF_8)`). -/
def resolveEncoding (label : Option String) : Charset :=
  (forLabel (label.getD "utf-8")).getD .utf8

/-- Code points produced by the streaming decode path (`decode_stream`):
the incremental decoder runs across chunk boundaries. -/
def streamDecode (cs : Charset) (chunks : List Bytes) : List Nat :=
  match cs with
  | .utf8 => streamUtf8 chunks
  | .windows1252 => (chunks.map (List.map w1252Byte)).flatten

/-- Modelled from the spec: the fully-buffered decode path
(`Response::text()`), a lossy whole-buffer decode of the concatenated body
under the resolved encoding. -/
def bufferedLossy (cs : Charset) (bs : Bytes) : List Nat :=
  match cs with
  | .utf8 => utf8Lossy bs
  | .windows1252 => bs.map w1252Byte

/-! ## The printer model

The output sink (`Buffer`) and the highlighter are externalized into a
trace of events: direct sink writes, and the open/write/finish calls of a
highlight session.  External collaborators that live outside this source
file (the JSON reformatter, the content-type detector, the mime charset
parameter extractor) are arbitrary function parameters, quantified in the
theorems. -/

/-- Payload of an I/O failure; its contents are irrelevant to the model. -/
abbrev IOFailure := String

/-- Observable output events. -/
inductive Ev
  | write (s : String)
  | writeB (b : Bytes)
  | hlOpen (syn : String)
  | hlHighlight (s : String)
  | hlLine (b : Bytes)
  | hlFinish
deriving DecidableEq, Repr

/-- Modelled from the spec: the output sink (`Buffer` from `buffer.rs`,
not part of this source unit) exposes `is_terminal()`; writes are
recorded as events. -/
structure Buffer where
  isTerminal : Bool
deriving DecidableEq, Repr

/-- Modelled from the spec: the resolved pretty option (`Pretty` from
`cli.rs`, not part of this source unit) exposes a formatting flag
(`format()`) and a coloring flag (`color()`). -/
structure Pretty where
  format : Bool
  color : Bool
deriving DecidableEq, Repr

/-- Modelled from the spec: the default pretty option derived from the
buffer — a terminal gets color, a redirected sink does not; formatting is
on in both cases. -/
def Pretty.fromBuffer (b : Buffer) : Pretty :=
  { format := true, color := b.isTerminal }

/-- Highlighter color themes; their content is irrelevant to the model. -/
inductive Theme
  | auto
  | dark
  | light
deriving DecidableEq, Repr

/-- The printer configuration, mirroring `struct Printer` in the source. -/
structure Printer where
  indent_json : Bool
  color : Bool
  theme : Theme
  sort_headers : Bool
  stream : Bool
  buffer : Buffer
deriving DecidableEq, Repr

/-- `Printer::new`: both `indent_json` and `sort_headers` are set from
`pretty.format()`, and `color` from `pretty.color()`. -/
def Printer.new (pretty : Option Pretty) (theme : Option Theme) (stream : Bool)
    (buffer : Buffer) : Printer :=
  let pretty := pretty.getD (Pretty.fromBuffer buffer)
  let theme := theme.getD .auto
  { indent_json := pretty.format
    sort_headers := pretty.format
    color := pretty.color
    stream := stream
    theme := theme
    buffer := buffer }

/-- `Printer::with_highlighter`: create a highlighter, run the caller's
closure (given here by the events it writes and whether it fails), then
call `Highlighter::finish` — but only when the closure succeeded; an error
short-circuits via `?` before the `finish` call. -/
def Printer.with_highlighter (_p : Printer) (syn : String)
    (code : List Ev × Option IOFailure) : List Ev × Option IOFailure :=
  match code with
  | (evs, none) => (Ev.hlOpen syn :: evs ++ [Ev.hlFinish], none)
  | (evs, some e) => (Ev.hlOpen syn :: evs, some e)

/-- Success-path projection of `with_highlighter`, used by the concrete
render paths (in the event model a sink write cannot fail). -/
def Printer.with_highlighterOk (p : Printer) (syn : String) (evs : List Ev) : List Ev :=
  (p.with_highlighter syn (evs, none)).1

/-- `Printer::print_colorized_text`: one highlighted write of the text. -/
def Printer.print_colorized_text (p : Printer) (text : String) (syn : String) : List Ev :=
  p.with_highlighterOk syn [Ev.hlHighlight text]

/-- Modelled from the spec: `print_stream` (via `copy_largebuf` from
`utils.rs`, not part of this source unit) copies the raw bytes of the
stream to the buffer unchanged. -/
def print_stream (chunks : List Bytes) : List Ev :=
  [Ev.writeB chunks.flatten]

/-- `Printer::print_syntax_text`. -/
def Printer.print_syntax_text (p : Printer) (text : String) (syn : String) : List Ev :=
  if p.color then p.print_colorized_text text syn else [Ev.write text]

/-- `Printer::print_syntax_stream`: with color, the stream bytes are fed
to the highlighter's line-chunked writer inside a session. -/
def Printer.print_syntax_stream (p : Printer) (chunks : List Bytes) (syn : String) : List Ev :=
  if p.color then p.with_highlighterOk syn [Ev.hlLine chunks.flatten]
  else print_stream chunks

/-- Bytes of a string, as `str::as_bytes` (UTF-8). -/
def utf8EncodeCp1 (c : Nat) : Bytes :=
  if c < 0x80 then [c]
  else if c < 0x800 then [0xC0 + c / 64, 0x80 + c % 64]
  else if c < 0x10000 then [0xE0 + c / 4096, 0x80 + (c / 64) % 64, 0x80 + c % 64]
  else [0xF0 + c / 262144, 0x80 + (c / 4096) % 64, 0x80 + (c / 64) % 64, 0x80 + c % 64]

def utf8EncodeCp (cps : List Nat) : Bytes := (cps.map utf8EncodeCp1).flatten

def strBytes (s : String) : Bytes := utf8EncodeCp (s.data.map Char.toNat)

/-- Text from code points (`String::from_utf8_lossy` output view). -/
def cpString (cps : List Nat) : String := ⟨cps.map Char.ofNat⟩

/-- `Printer::print_json_text`, the buffered JSON render.  `fmt` is the
external JSON reformatter (`get_json_formatter().format_stream_unbuffered`)
as a byte-stream transformer. -/
def Printer.print_json_text (p : Printer) (fmt : Bytes → Bytes) (text : String) : List Ev :=
  if !p.indent_json then p.print_syntax_text text "json"
  else if p.color then
    let buf := fmt (strBytes text)
    let text := cpString (utf8Lossy buf)
    p.print_colorized_text text "json"
  else [Ev.writeB (fmt (strBytes text))]

/-- `Printer::print_json_stream`, the streaming JSON render. -/
def Printer.print_json_stream (p : Printer) (fmt : Bytes → Bytes) (chunks : List Bytes) :
    List Ev :=
  if !p.indent_json then p.print_syntax_stream chunks "json"
  else if p.color then p.with_highlighterOk "json" [Ev.hlLine (fmt chunks.flatten)]
  else [Ev.writeB (fmt chunks.flatten)]

/-! ## Headers -/

/-- A header collection: ordered (name, value) pairs; values are raw bytes
(`HeaderValue` may hold non-text bytes).  Name lookup is case-insensitive,
matching `http::HeaderMap` (whose stored names are canonically lowercase). -/
abbrev HeaderMap := List (String × Bytes)

/-- `HeaderValue::to_str`: succeeds exactly when every byte is visible
ASCII (or tab). -/
def headerValueStr (v : Bytes) : Option String :=
  if v.all (fun b => (32 ≤ b && b ≤ 126) || b = 9) then
    some ⟨v.map Char.ofNat⟩
  else none

def hexDigit (n : Nat) : Char :=
  if n < 10 then Char.ofNat (48 + n) else Char.ofNat (87 + n)

/-- The `{:?}` rendering of a `HeaderValue`: quoted, with non-printable
bytes hex-escaped. -/
def headerValueDebug (v : Bytes) : String :=
  "\"" ++ String.join (v.map (fun b =>
    if b = 34 then "\\\""
    else if b = 92 then "\\\\"
    else if 32 ≤ b ∧ b < 127 then ⟨[Char.ofNat b]⟩
    else ⟨['\\', 'x', hexDigit (b / 16), hexDigit (b % 16)]⟩)) ++ "\""

/-- One `name: value` line of the header block. -/
def headerLine (kv : String × Bytes) : String :=
  kv.1 ++ ": " ++ ((headerValueStr kv.2).getD (headerValueDebug kv.2))

/-- Key order used by `sort_by(|(a, _), (b, _)| a.to_string().cmp(&b.to_string()))`:
ordinal (lexicographic) comparison of the name strings. -/
def keyLE (a b : String × Bytes) : Prop := a.1 ≤ b.1

instance : DecidableRel keyLE := fun a b => inferInstanceAs (Decidable (a.1 ≤ b.1))

/-- Rust's `sort_by` is a stable sort; any stable sort by a total preorder
is extensionally insertion sort. -/
def sortHeaders (hm : HeaderMap) : HeaderMap := List.insertionSort keyLE hm

/-- `String::pop`: remove the last character (no-op on the empty string). -/
def strPop (s : String) : String := ⟨s.data.dropLast⟩

/-- `Printer::headers_to_string`: optionally sort, then emit one
`name: value` line per header each followed by `\n`, and pop the final
newline. -/
def headers_to_string (hm : HeaderMap) (sort : Bool) : String :=
  let hs := if sort then sortHeaders hm else hm
  strPop (hs.foldl (fun acc kv => acc ++ headerLine kv ++ "\n") "")

/-- Case-insensitive presence test (`HeaderMap` name lookup semantics). -/
def hasHeaderCI (hm : HeaderMap) (name : String) : Bool :=
  hm.any (fun kv => asciiLower kv.1 = asciiLower name)

/-- `headers.entry(NAME).or_insert_with(..)`: append the entry only when no
header of that name (case-insensitively) is present. -/
def entryOrInsert (hm : HeaderMap) (name : String) (v : Bytes) : HeaderMap :=
  if hasHeaderCI hm name then hm else hm ++ [(name, v)]

/-- Case-insensitive value lookup (`HeaderMap::get`): first match wins. -/
def lookupHeader (hm : HeaderMap) (name : String) : Option Bytes :=
  (hm.find? (fun kv => asciiLower kv.1 = asciiLower name)).map (·.2)

/-! ## Message views -/

/-- The detected content type (`utils::ContentType`, external detector). -/
inductive ContentType
  | json
  | xml
  | html
  | multipart
deriving DecidableEq, Repr

/-- The parts of `reqwest::Url` the printer reads. -/
structure Url where
  path : String
  query : Option String
  host : Option String
  port : Option Nat
deriving DecidableEq, Repr

/-- A request view: method, URL, the protocol version configured on the
request (its `{:?}` rendering), headers, and an optional materialized
body. -/
structure Request where
  method : String
  url : Url
  version : String
  headers : HeaderMap
  body : Option Bytes
deriving DecidableEq, Repr

/-- A response view: the `{:?}` rendering of its version, the `Display`
rendering of its status, headers, and the body as a chunked byte stream. -/
structure Response where
  version : String
  status : String
  headers : HeaderMap
  bodyChunks : List Bytes
deriving DecidableEq, Repr

/-- Charset resolution shared verbatim by `decode_stream` and
`Response::text()`: read the `Content-Type` header as text, extract its
`charset` parameter via the external mime parser (`mimeCharset`), default
the label to `utf-8`, resolve it, and fall back to UTF-8. -/
def encodingFor (mimeCharset : String → Option String) (hm : HeaderMap) : Charset :=
  resolveEncoding (((lookupHeader hm "content-type").bind headerValueStr).bind mimeCharset)

/-- `decode_stream`: the response byte stream re-emitted as the UTF-8
encoding of the incrementally decoded text. -/
def decode_stream (mimeCharset : String → Option String) (resp : Response) : List Bytes :=
  [utf8EncodeCp (streamDecode (encodingFor mimeCharset resp.headers) resp.bodyChunks)]

/-- Code points of `Response::text()`: whole-buffer lossy decode of the
concatenated body under the same resolved encoding. -/
def respTextCp (mimeCharset : String → Option String) (resp : Response) : List Nat :=
  bufferedLossy (encodingFor mimeCharset resp.headers) resp.bodyChunks.flatten

/-! ## Top-level printer operations -/

/-- The multipart suppression banner (trailing blank line included). -/
def MULTIPART_SUPPRESSOR : String :=
  "+--------------------------------------------+\n" ++
  "| NOTE: multipart data not shown in terminal |\n" ++
  "+--------------------------------------------+\n" ++
  "\n"

/-- The binary suppression banner (trailing blank line included). -/
def BINARY_SUPPRESSOR : String :=
  "+-----------------------------------------+\n" ++
  "| NOTE: binary data not shown in terminal |\n" ++
  "+-----------------------------------------+\n" ++
  "\n"

/-- `Printer::print_headers`: the whole block goes to the highlighter when
color is on, otherwise to the sink in one write. -/
def Printer.print_headers (p : Printer) (text : String) : List Ev :=
  if p.color then p.print_colorized_text text "http" else [Ev.write text]

/-- Header synthesis in `print_request_headers`: `Content-Length` from a
materialized body, then `Host` from the URL (the sentinel `http.mock` in
test mode), each only if absent. -/
def synthesizeHeaders (testMode : Bool) (req : Request) : HeaderMap :=
  let h1 := match req.body with
    | some b => entryOrInsert req.headers "content-length" (strBytes (toString b.length))
    | none => req.headers
  match req.url.host with
  | some host =>
    entryOrInsert h1 "host"
      (strBytes (if testMode then "http.mock"
        else match req.url.port with
          | some port => host ++ ":" ++ toString port
          | none => host))
  | none => h1

/-- The `?query` suffix of the request target. -/
def queryString (q : Option String) : String :=
  match q with
  | some q => "?" ++ q
  | none => ""

/-- `Printer::print_request_headers`: request line (always `HTTP/1.1`),
synthesized headers, one block write, then the `\n\n` separator write. -/
def Printer.print_request_headers (p : Printer) (testMode : Bool) (req : Request) : List Ev :=
  let headers := synthesizeHeaders testMode req
  let request_line :=
    req.method ++ " " ++ req.url.path ++ queryString req.url.query ++ " HTTP/1.1\n"
  p.print_headers (request_line ++ headers_to_string headers p.sort_headers) ++ [Ev.write "\n\n"]

/-- `Printer::print_response_headers`. -/
def Printer.print_response_headers (p : Printer) (resp : Response) : List Ev :=
  let status_line := resp.version ++ " " ++ resp.status ++ "\n"
  p.print_headers (status_line ++ headers_to_string resp.headers p.sort_headers)
    ++ [Ev.write "\n\n"]

/-- `Printer::print_body_text`: buffered dispatch on content type. -/
def Printer.print_body_text (p : Printer) (fmt : Bytes → Bytes)
    (contentType : Option ContentType) (body : String) : List Ev :=
  match contentType with
  | some .json => p.print_json_text fmt body
  | some .xml => p.print_syntax_text body "xml"
  | some .html => p.print_syntax_text body "html"
  | _ => [Ev.write body]

/-- `Printer::print_body_stream`: streaming dispatch on content type. -/
def Printer.print_body_stream (p : Printer) (fmt : Bytes → Bytes)
    (contentType : Option ContentType) (body : List Bytes) : List Ev :=
  match contentType with
  | some .json => p.print_json_stream fmt body
  | some .xml => p.print_syntax_stream body "xml"
  | some .html => p.print_syntax_stream body "html"
  | _ => print_stream body

/-- Strict UTF-8 validity (`String::from_utf8(..).ok()` succeeds). -/
def isValidUtf8 : Bytes → Bool
  | [] => true
  | b :: rest =>
    if b < 0x80 then isValidUtf8 rest
    else if 0xC2 ≤ b ∧ b ≤ 0xDF then
      match rest with
      | c1 :: rest1 => (0x80 ≤ c1 && c1 ≤ 0xBF) && isValidUtf8 rest1
      | [] => false
    else if 0xE0 ≤ b ∧ b ≤ 0xEF then
      match rest with
      | c1 :: c2 :: rest2 =>
        ((if b = 0xE0 then 0xA0 else 0x80) ≤ c1 && c1 ≤ (if b = 0xED then 0x9F else 0xBF))
          && (0x80 ≤ c2 && c2 ≤ 0xBF) && isValidUtf8 rest2
      | _ => false
    else if 0xF0 ≤ b ∧ b ≤ 0xF4 then
      match rest with
      | c1 :: c2 :: c3 :: rest3 =>
        ((if b = 0xF0 then 0x90 else 0x80) ≤ c1 && c1 ≤ (if b = 0xF4 then 0x8F else 0xBF))
          && (0x80 ≤ c2 && c2 ≤ 0xBF) && (0x80 ≤ c3 && c3 ≤ 0xBF) && isValidUtf8 rest3
      | _ => false
    else false

/-- `Printer::print_request_body`: multipart gets the banner; otherwise a
materialized, NUL-free, valid-UTF-8 body is rendered with one trailing
newline; anything else writes nothing. -/
def Printer.print_request_body (p : Printer) (fmt : Bytes → Bytes)
    (detect : HeaderMap → Option ContentType) (req : Request) : List Ev :=
  match detect req.headers with
  | some .multipart => [Ev.write MULTIPART_SUPPRESSOR]
  | contentType =>
    match req.body with
    | some b =>
      if !b.contains 0 && isValidUtf8 b then
        p.print_body_text fmt contentType (cpString (utf8Lossy b)) ++ [Ev.write "\n"]
      else []
    | none => []

/-- `Printer::print_response_body`: the three-way branch on
`is_terminal` and `stream`. -/
def Printer.print_response_body (p : Printer) (fmt : Bytes → Bytes)
    (mimeCharset : String → Option String) (detect : HeaderMap → Option ContentType)
    (resp : Response) : List Ev :=
  if !p.buffer.isTerminal then
    p.print_body_stream fmt (detect resp.headers) resp.bodyChunks
  else if p.stream then
    p.print_body_stream fmt (detect resp.headers) (decode_stream mimeCharset resp)
      ++ [Ev.write "\n"]
  else
    let contentType := detect resp.headers
    let text := respTextCp mimeCharset resp
    if text.contains 0 then [Ev.write BINARY_SUPPRESSOR]
    else p.print_body_text fmt contentType (cpString text) ++ [Ev.write "\n"]

/-! ## Sequencing of printer operations (for the configuration invariant) -/

/-- The four public operations of a `Printer`. -/
inductive PrinterOp
  | reqHeaders (testMode : Bool) (req : Request)
  | respHeaders (resp : Response)
  | reqBody (fmt : Bytes → Bytes) (detect : HeaderMap → Option ContentType) (req : Request)
  | respBody (fmt : Bytes → Bytes) (mimeCharset : String → Option String)
      (detect : HeaderMap → Option ContentType) (resp : Response)

/-- Each public operation takes `&mut self` only for sink access; the
source assigns to no configuration field, so the printer value comes back
unchanged alongside the emitted events. -/
def applyOp (p : Printer) : PrinterOp → Printer × List Ev
  | .reqHeaders tm req => (p, p.print_request_headers tm req)
  | .respHeaders resp => (p, p.print_response_headers resp)
  | .reqBody fmt detect req => (p, p.print_request_body fmt detect req)
  | .respBody fmt mc detect resp => (p, p.print_response_body fmt mc detect resp)

/-- Run a sequence of operations, threading the printer. -/
def runOps (p : Printer) : List PrinterOp → Printer × List Ev
  | [] => (p, [])
  | op :: rest =>
    let q := applyOp p op
    let r := runOps q.1 rest
    (r.1, q.2 ++ r.2)

theorem applyOp_fst (p : Printer) (op : PrinterOp) : (applyOp p op).1 = p := by
  cases op <;> rfl

theorem runOps_fst (p : Printer) (ops : List PrinterOp) : (runOps p ops).1 = p := by
  induction ops generalizing p with
  | nil => rfl
  | cons op rest ih => simp [runOps, applyOp_fst, ih]

/-! ## Claim theorems -/

theorem map_flatten_comm (f : Nat → Nat) (chunks : List Bytes) :
    (chunks.map (List.map f)).flatten = chunks.flatten.map f := by
  induction chunks with
  | nil => rfl
  | cons c rest ih => simp only [List.map_cons, List.flatten_cons, List.map_append, ih]

/-- C1: for every response body byte sequence and every declared or absent
charset label (any `Content-Type` header contents, any mime-parameter
extraction), the streaming decode path produces the same visible text as
fully buffering the body and applying the lossy decode, including
multi-byte sequences split across chunk boundaries and invalid byte
sequences. -/
theorem streaming_decode_eq_buffered_decode (mimeCharset : String → Option String)
    (headers : HeaderMap) (chunks : List Bytes) :
    streamDecode (encodingFor mimeCharset headers) chunks
      = bufferedLossy (encodingFor mimeCharset headers) chunks.flatten := by
  cases encodingFor mimeCharset headers with
  | utf8 => simpa [streamDecode, bufferedLossy] using streamUtf8_eq_utf8Lossy chunks
  | windows1252 => simp only [streamDecode, bufferedLossy, map_flatten_comm]

/-- C2: on a successful closure, `with_highlighter` appends exactly one
`finish` after the closure's writes; on a failing closure the error
propagates and `finish` is never invoked. -/
theorem with_highlighter_finish_policy (p : Printer) (syn : String) (evs : List Ev)
    (e : IOFailure) (h : Ev.hlFinish ∉ evs) :
    (p.with_highlighter syn (evs, none)).1 = Ev.hlOpen syn :: evs ++ [Ev.hlFinish] ∧
    (p.with_highlighter syn (evs, none)).1.count Ev.hlFinish = 1 ∧
    (p.with_highlighter syn (evs, none)).2 = none ∧
    p.with_highlighter syn (evs, some e) = (Ev.hlOpen syn :: evs, some e) ∧
    Ev.hlFinish ∉ (p.with_highlighter syn (evs, some e)).1 := by
  refine ⟨rfl, ?_, rfl, rfl, ?_⟩
  · simp [Printer.with_highlighter, List.count_append, List.count_cons,
      List.count_eq_zero.mpr h]
  · simp [Printer.with_highlighter, h]

theorem with_highlighter_finish_policy_witness :
    ((Printer.new none none false ⟨true⟩).with_highlighter "json"
        ([Ev.hlHighlight "x"], none)).1
      = Ev.hlOpen "json" :: [Ev.hlHighlight "x"] ++ [Ev.hlFinish] ∧
    ((Printer.new none none false ⟨true⟩).with_highlighter "json"
        ([Ev.hlHighlight "x"], none)).1.count Ev.hlFinish = 1 ∧
    ((Printer.new none none false ⟨true⟩).with_highlighter "json"
        ([Ev.hlHighlight "x"], none)).2 = none ∧
    (Printer.new none none false ⟨true⟩).with_highlighter "json"
        ([Ev.hlHighlight "x"], some "boom")
      = (Ev.hlOpen "json" :: [Ev.hlHighlight "x"], some "boom") ∧
    Ev.hlFinish ∉ ((Printer.new none none false ⟨true⟩).with_highlighter "json"
        ([Ev.hlHighlight "x"], some "boom")).1 :=
  with_highlighter_finish_policy (Printer.new none none false ⟨true⟩) "json"
    [Ev.hlHighlight "x"] "boom" (by decide)

/-- C3: the four-way JSON matrix over pretty-format and color: pretty off
routes to the generic `json` syntax path (never reformatted); pretty on
with color off runs the reformatter directly against the sink; pretty on
with color on buffered runs the reformatter into a buffer, reads it as
text, and highlights it in a session; pretty on with color on streaming
runs the reformatter into the highlighter's line-chunked writer. -/
theorem json_render_matrix (c sh st : Bool) (th : Theme) (buf : Buffer)
    (fmt : Bytes → Bytes) (text : String) (chunks : List Bytes) :
    (Printer.mk false c th sh st buf).print_json_text fmt text
        = (Printer.mk false c th sh st buf).print_syntax_text text "json" ∧
    (Printer.mk false c th sh st buf).print_json_stream fmt chunks
        = (Printer.mk false c th sh st buf).print_syntax_stream chunks "json" ∧
    (Printer.mk true false th sh st buf).print_json_text fmt text
        = [Ev.writeB (fmt (strBytes text))] ∧
    (Printer.mk true false th sh st buf).print_json_stream fmt chunks
        = [Ev.writeB (fmt chunks.flatten)] ∧
    (Printer.mk true true th sh st buf).print_json_text fmt text
        = [Ev.hlOpen "json", Ev.hlHighlight (cpString (utf8Lossy (fmt (strBytes text)))),
            Ev.hlFinish] ∧
    (Printer.mk true true th sh st buf).print_json_stream fmt chunks
        = [Ev.hlOpen "json", Ev.hlLine (fmt chunks.flatten), Ev.hlFinish] := by
  refine ⟨rfl, rfl, rfl, rfl, ?_, rfl⟩
  simp [Printer.print_json_text, Printer.print_colorized_text, Printer.with_highlighterOk,
    Printer.with_highlighter]

/-- C7: the constructor always sets `indent_json` and `sort_headers` to the
same value (the pretty-format flag), and no sequence of printer operations
changes the printer's configuration. -/
theorem printer_flags_invariant (pretty : Option Pretty) (theme : Option Theme)
    (stream : Bool) (buffer : Buffer) (ops : List PrinterOp) :
    (Printer.new pretty theme stream buffer).indent_json
        = (Printer.new pretty theme stream buffer).sort_headers ∧
    (∀ pr : Pretty, (Printer.new (some pr) theme stream buffer).indent_json = pr.format ∧
      (Printer.new (some pr) theme stream buffer).sort_headers = pr.format) ∧
    (runOps (Printer.new pretty theme stream buffer) ops).1
        = Printer.new pretty theme stream buffer :=
  ⟨rfl, fun _ => ⟨rfl, rfl⟩, runOps_fst _ ops⟩

/-- C10: the request line is always rendered with the literal version
`HTTP/1.1`, ignoring the version configured on the request. -/
theorem request_line_always_http11 (p : Printer) (tm : Bool) (req : Request) (v : String) :
    p.print_request_headers tm req
      = p.print_headers (req.method ++ " " ++ req.url.path ++ queryString req.url.query
          ++ " HTTP/1.1\n" ++ headers_to_string (synthesizeHeaders tm req) p.sort_headers)
        ++ [Ev.write "\n\n"] ∧
    p.print_request_headers tm { req with version := v } = p.print_request_headers tm req :=
  ⟨rfl, rfl⟩

/-! ## Header formatting lemmas (for C9) -/

/-- Newline-joined lines with no trailing newline (the spec's description
of the header block). -/
def joinLines : List String → String
  | [] => ""
  | [l] => l
  | l :: ls => l ++ "\n" ++ joinLines ls

theorem foldl_hl_acc (hs : HeaderMap) (acc : String) :
    hs.foldl (fun acc kv => acc ++ headerLine kv ++ "\n") acc
      = acc ++ hs.foldl (fun acc kv => acc ++ headerLine kv ++ "\n") "" := by
  induction hs generalizing acc with
  | nil => simp [List.foldl]
  | cons kv t ih =>
    simp only [List.foldl]
    rw [ih (acc ++ headerLine kv ++ "\n"), ih ("" ++ headerLine kv ++ "\n")]
    simp [String.append_assoc, String.empty_append]

theorem foldl_hl_ends (hs : HeaderMap) (acc : String) (h : hs ≠ []) :
    ∃ u, hs.foldl (fun acc kv => acc ++ headerLine kv ++ "\n") acc = u ++ "\n" := by
  induction hs generalizing acc with
  | nil => exact absurd rfl h
  | cons kv t ih =>
    cases t with
    | nil => exact ⟨acc ++ headerLine kv, by simp [List.foldl]⟩
    | cons kv2 t2 =>
      simp only [List.foldl]
      exact ih _ (by simp)

theorem strPop_append_newline (s : String) : strPop (s ++ "\n") = s := by
  apply String.ext
  have hn : ("\n" : String).data = ['\n'] := rfl
  simp [strPop, String.data_append, hn]

theorem headers_join (hs : HeaderMap) :
    strPop (hs.foldl (fun acc kv => acc ++ headerLine kv ++ "\n") "")
      = joinLines (hs.map headerLine) := by
  induction hs with
  | nil => rfl
  | cons kv t ih =>
    cases t with
    | nil =>
      have h1 : List.foldl (fun acc kv => acc ++ headerLine kv ++ "\n") "" [kv]
          = "" ++ headerLine kv ++ "\n" := rfl
      rw [h1, String.empty_append, strPop_append_newline]
      rfl
    | cons kv2 t2 =>
      have h1 : List.foldl (fun acc kv => acc ++ headerLine kv ++ "\n") "" (kv :: kv2 :: t2)
          = List.foldl (fun acc kv => acc ++ headerLine kv ++ "\n")
              ("" ++ headerLine kv ++ "\n") (kv2 :: t2) := rfl
      obtain ⟨u, hu⟩ := foldl_hl_ends (kv2 :: t2) "" (by simp)
      rw [h1, foldl_hl_acc, hu]
      have hassoc : ("" ++ headerLine kv ++ "\n") ++ (u ++ "\n")
          = (headerLine kv ++ "\n" ++ u) ++ "\n" := by
        simp [String.append_assoc, String.empty_append]
      rw [hassoc, strPop_append_newline]
      have hu2 : u = joinLines ((kv2 :: t2).map headerLine) := by
        rw [← ih, hu, strPop_append_newline]
      rw [hu2]
      simp [joinLines]

instance : IsTotal (String × Bytes) keyLE := ⟨fun a b => le_total a.1 b.1⟩

instance : IsTrans (String × Bytes) keyLE := ⟨fun _ _ _ => le_trans⟩

theorem filter_orderedInsert (n : String) (a : String × Bytes) (l : HeaderMap) :
    (List.orderedInsert keyLE a l).filter (fun kv => kv.1 == n)
      = if a.1 == n then a :: l.filter (fun kv => kv.1 == n)
        else l.filter (fun kv => kv.1 == n) := by
  induction l with
  | nil => simp [List.orderedInsert, List.filter_cons]
  | cons b t ih =>
    by_cases hr : keyLE a b
    · simp [List.orderedInsert, hr, List.filter_cons]
    · by_cases hn : a.1 = n
      · have hbn : (b.1 == n) = false := by
          refine beq_eq_false_iff_ne.mpr ?_
          intro hbn
          exact hr (le_of_eq (hn.trans hbn.symm))
        simp [List.orderedInsert, hr, List.filter_cons, hbn, ih, hn]
      · have han : (a.1 == n) = false := beq_eq_false_iff_ne.mpr hn
        simp [List.orderedInsert, hr, List.filter_cons, ih, han]

theorem filter_sortHeaders (n : String) (hm : HeaderMap) :
    (sortHeaders hm).filter (fun kv => kv.1 == n) = hm.filter (fun kv => kv.1 == n) := by
  induction hm with
  | nil => rfl
  | cons a t ih =>
    show (List.orderedInsert keyLE a (List.insertionSort keyLE t)).filter _ = _
    rw [filter_orderedInsert]
    by_cases hn : (a.1 == n) = true
    · simp [hn, List.filter_cons, ← ih, sortHeaders]
    · simp only [Bool.not_eq_true] at hn
      simp [hn, List.filter_cons, ← ih, sortHeaders]

/-- C9: header formatting emits one `name: value` line per header,
newline-joined with no trailing newline; with sort on, lines are stably
ordered by name under ordinal string comparison; with sort off, insertion
order is preserved; a non-text value is rendered with the escaped debug
representation instead of failing or being dropped. -/
theorem headers_to_string_contract (hm : HeaderMap) (n k : String) (v : Bytes) :
    headers_to_string hm false = joinLines (hm.map headerLine) ∧
    headers_to_string hm true = joinLines ((sortHeaders hm).map headerLine) ∧
    List.Sorted keyLE (sortHeaders hm) ∧
    (sortHeaders hm).filter (fun kv => kv.1 == n) = hm.filter (fun kv => kv.1 == n) ∧
    (sortHeaders hm).length = hm.length ∧
    headerLine (k, v) = k ++ ": " ++ ((headerValueStr v).getD (headerValueDebug v)) :=
  ⟨headers_join hm, headers_join (sortHeaders hm),
    List.sorted_insertionSort keyLE hm,
    filter_sortHeaders n hm,
    (List.perm_insertionSort keyLE hm).length_eq,
    rfl⟩

/-! ## Header synthesis lemmas (for C8) -/

theorem entryOrInsert_spec (hm : HeaderMap) (name : String) (v : Bytes) :
    ∃ extra, entryOrInsert hm name v = hm ++ extra ∧
      ∀ kv ∈ extra, hasHeaderCI hm kv.1 = false := by
  by_cases h : hasHeaderCI hm name
  · exact ⟨[], by simp [entryOrInsert, h], by simp⟩
  · refine ⟨[(name, v)], by simp [entryOrInsert, h], ?_⟩
    intro kv hkv
    simp only [List.mem_singleton] at hkv
    subst hkv
    simpa using h

theorem hasHeaderCI_append_false {hm e : HeaderMap} {x : String}
    (h : hasHeaderCI (hm ++ e) x = false) : hasHeaderCI hm x = false := by
  simp only [hasHeaderCI, List.any_append, Bool.or_eq_false_iff] at h
  exact h.1

theorem hasHeaderCI_append (hm e : HeaderMap) (x : String) :
    hasHeaderCI (hm ++ e) x = (hasHeaderCI hm x || hasHeaderCI e x) := by
  simp [hasHeaderCI, List.any_append]

/-- Synthesis only appends headers whose names are absent; it never touches
an existing entry. -/
theorem synthesize_append_only (tm : Bool) (req : Request) :
    ∃ extra, synthesizeHeaders tm req = req.headers ++ extra ∧
      ∀ kv ∈ extra, hasHeaderCI req.headers kv.1 = false := by
  obtain ⟨m, ⟨pa, q, ho, po⟩, ver, hs, bd⟩ := req
  simp only [synthesizeHeaders]
  have step1 : ∃ e1, (match bd with
      | some b => entryOrInsert hs "content-length" (strBytes (toString b.length))
      | none => hs) = hs ++ e1 ∧ ∀ kv ∈ e1, hasHeaderCI hs kv.1 = false := by
    cases bd with
    | none => exact ⟨[], by simp, by simp⟩
    | some b => exact entryOrInsert_spec _ _ _
  obtain ⟨e1, he1, hp1⟩ := step1
  cases ho with
  | none => exact ⟨e1, by simpa using he1, hp1⟩
  | some host =>
    obtain ⟨e2, he2, hp2⟩ := entryOrInsert_spec (hs ++ e1) "host"
      (strBytes (if tm then "http.mock"
        else match po with
          | some port => host ++ ":" ++ toString port
          | none => host))
    refine ⟨e1 ++ e2, ?_, ?_⟩
    · simp only at he1 ⊢
      rw [he1, he2, List.append_assoc]
    · intro kv hkv
      rcases List.mem_append.mp hkv with hk | hk
      · exact hp1 kv hk
      · exact hasHeaderCI_append_false (hp2 kv hk)

/-- A request that already declares both headers is left unmodified. -/
theorem synthesize_unchanged (tm : Bool) (req : Request)
    (hcl : hasHeaderCI req.headers "content-length" = true)
    (hh : hasHeaderCI req.headers "host" = true) :
    synthesizeHeaders tm req = req.headers := by
  obtain ⟨m, ⟨pa, q, ho, po⟩, ver, hs, bd⟩ := req
  simp only at hcl hh
  cases bd <;> cases ho <;> simp [synthesizeHeaders, entryOrInsert, hcl, hh]

/-- A request with neither header, a materialized body and a URL host gains
exactly the two synthesized headers, with the correct values. -/
theorem synthesize_gains_two (tm : Bool) (req : Request) (b : Bytes) (host : String)
    (hcl : hasHeaderCI req.headers "content-length" = false)
    (hh : hasHeaderCI req.headers "host" = false)
    (hb : req.body = some b) (hhost : req.url.host = some host) :
    synthesizeHeaders tm req = req.headers ++
      [("content-length", strBytes (toString b.length)),
       ("host", strBytes (if tm then "http.mock"
         else match req.url.port with
           | some port => host ++ ":" ++ toString port
           | none => host))] := by
  obtain ⟨m, ⟨pa, q, ho, po⟩, ver, hs, bd⟩ := req
  simp only at hcl hh hb hhost ⊢
  subst hb
  subst hhost
  have h2 : hasHeaderCI (hs ++ [("content-length", strBytes (toString b.length))]) "host"
      = false := by
    rw [hasHeaderCI_append, hh, Bool.false_or]
    simp only [hasHeaderCI, List.any_cons, List.any_nil, Bool.or_false]
    rfl
  simp [synthesizeHeaders, entryOrInsert, hcl, h2]

/-- C8: before formatting request headers, a `Content-Length` equal to the
materialized body length and a `Host` of `<hostname>[:<port>]` (the
`http.mock` sentinel in test mode) are synthesized, each only if no header
of that name is present case-insensitively; existing headers are never
overwritten, and a request with neither header and a non-empty body gains
exactly those two headers. -/
theorem request_header_synthesis (tm : Bool) (req req1 req2 : Request) (b : Bytes)
    (host : String)
    (h1cl : hasHeaderCI req1.headers "content-length" = true)
    (h1h : hasHeaderCI req1.headers "host" = true)
    (h2cl : hasHeaderCI req2.headers "content-length" = false)
    (h2h : hasHeaderCI req2.headers "host" = false)
    (h2b : req2.body = some b) (_h2ne : b ≠ [])
    (h2host : req2.url.host = some host) :
    (∃ extra, synthesizeHeaders tm req = req.headers ++ extra ∧
      ∀ kv ∈ extra, hasHeaderCI req.headers kv.1 = false) ∧
    synthesizeHeaders tm req1 = req1.headers ∧
    synthesizeHeaders tm req2 = req2.headers ++
      [("content-length", strBytes (toString b.length)),
       ("host", strBytes (if tm then "http.mock"
         else match req2.url.port with
           | some port => host ++ ":" ++ toString port
           | none => host))] :=
  ⟨synthesize_append_only tm req, synthesize_unchanged tm req1 h1cl h1h,
    synthesize_gains_two tm req2 b host h2cl h2h h2b h2host⟩

theorem request_header_synthesis_witness :
    (∃ extra,
      synthesizeHeaders false
          ⟨"POST", ⟨"/p", none, some "example.org", some 8080⟩, "HTTP/1.1",
            [("accept", strBytes "*/*")], some [104, 105]⟩
        = [("accept", strBytes "*/*")] ++ extra ∧
      ∀ kv ∈ extra, hasHeaderCI [("accept", strBytes "*/*")] kv.1 = false) ∧
    synthesizeHeaders false
        ⟨"GET", ⟨"/", none, some "example.org", none⟩, "HTTP/1.1",
          [("Content-Length", strBytes "3"), ("HOST", strBytes "example.org")],
          some [104, 105, 33]⟩
      = [("Content-Length", strBytes "3"), ("HOST", strBytes "example.org")] ∧
    synthesizeHeaders false
        ⟨"POST", ⟨"/p", none, some "example.org", some 8080⟩, "HTTP/1.1",
          [("accept", strBytes "*/*")], some [104, 105]⟩
      = [("accept", strBytes "*/*")] ++
        [("content-length", strBytes (toString ([104, 105] : Bytes).length)),
         ("host", strBytes (if false then "http.mock"
           else match (some 8080 : Option Nat) with
             | some port => "example.org" ++ ":" ++ toString port
             | none => "example.org"))] :=
  request_header_synthesis false
    ⟨"POST", ⟨"/p", none, some "example.org", some 8080⟩, "HTTP/1.1",
      [("accept", strBytes "*/*")], some [104, 105]⟩
    ⟨"GET", ⟨"/", none, some "example.org", none⟩, "HTTP/1.1",
      [("Content-Length", strBytes "3"), ("HOST", strBytes "example.org")],
      some [104, 105, 33]⟩
    ⟨"POST", ⟨"/p", none, some "example.org", some 8080⟩, "HTTP/1.1",
      [("accept", strBytes "*/*")], some [104, 105]⟩
    [104, 105] "example.org"
    (by decide) (by decide) (by decide) (by decide) rfl (by decide) rfl

/-! ## Response and request body claims (C4, C5, C6) -/

/-- C4: a response whose fully-decoded text contains a NUL byte yields, on
the buffered terminal path, exactly the binary-suppression banner and
nothing else; the non-terminal path and the forced-stream path perform no
NUL check and pass the body through unfiltered. -/
theorem response_binary_suppression (ij c sh st : Bool) (th : Theme)
    (fmt : Bytes → Bytes) (mimeCharset : String → Option String)
    (detect : HeaderMap → Option ContentType) (resp : Response)
    (hNul : (respTextCp mimeCharset resp).contains 0 = true) :
    (Printer.mk ij c th sh false ⟨true⟩).print_response_body fmt mimeCharset detect resp
        = [Ev.write BINARY_SUPPRESSOR] ∧
    (Printer.mk ij c th sh st ⟨false⟩).print_response_body fmt mimeCharset detect resp
        = (Printer.mk ij c th sh st ⟨false⟩).print_body_stream fmt (detect resp.headers)
            resp.bodyChunks ∧
    (Printer.mk ij c th sh true ⟨true⟩).print_response_body fmt mimeCharset detect resp
        = (Printer.mk ij c th sh true ⟨true⟩).print_body_stream fmt (detect resp.headers)
            (decode_stream mimeCharset resp) ++ [Ev.write "\n"] := by
  have hNul' : 0 ∈ respTextCp mimeCharset resp := by simpa using hNul
  refine ⟨?_, ?_, ?_⟩
  · simp [Printer.print_response_body, hNul']
  · simp [Printer.print_response_body]
  · simp [Printer.print_response_body]

theorem response_binary_suppression_witness :
    (Printer.mk false false Theme.auto false false ⟨true⟩).print_response_body id
        (fun _ => none) (fun _ => none) ⟨"HTTP/1.1", "200 OK", [], [[0]]⟩
      = [Ev.write BINARY_SUPPRESSOR] ∧
    (Printer.mk false false Theme.auto false false ⟨false⟩).print_response_body id
        (fun _ => none) (fun _ => none) ⟨"HTTP/1.1", "200 OK", [], [[0]]⟩
      = (Printer.mk false false Theme.auto false false ⟨false⟩).print_body_stream id
          ((fun _ => none) ([] : HeaderMap)) [[0]] ∧
    (Printer.mk false false Theme.auto false true ⟨true⟩).print_response_body id
        (fun _ => none) (fun _ => none) ⟨"HTTP/1.1", "200 OK", [], [[0]]⟩
      = (Printer.mk false false Theme.auto false true ⟨true⟩).print_body_stream id
          ((fun _ => none) ([] : HeaderMap))
          (decode_stream (fun _ => none) ⟨"HTTP/1.1", "200 OK", [], [[0]]⟩)
        ++ [Ev.write "\n"] :=
  response_binary_suppression false false false false Theme.auto id (fun _ => none)
    (fun _ => none) ⟨"HTTP/1.1", "200 OK", [], [[0]]⟩ (by decide)

/-- C5: a multipart request body yields exactly the multipart banner
regardless of the actual body; a materialized, NUL-free, valid-UTF-8 body
is rendered by content type followed by exactly one newline; a missing
body, a body with a NUL, or invalid UTF-8 writes nothing at all. -/
theorem request_body_rendering (p : Printer) (fmt : Bytes → Bytes)
    (detect : HeaderMap → Option ContentType) (reqM req1 req2 req3 : Request) (b b3 : Bytes)
    (h1b : req1.body = some b) (h1n : b.contains 0 = false) (h1v : isValidUtf8 b = true)
    (h1ct : detect req1.headers ≠ some ContentType.multipart)
    (h2b : req2.body = none)
    (h2ct : detect req2.headers ≠ some ContentType.multipart)
    (h3b : req3.body = some b3)
    (h3bad : b3.contains 0 = true ∨ isValidUtf8 b3 = false)
    (h3ct : detect req3.headers ≠ some ContentType.multipart) :
    p.print_request_body fmt (fun _ => some ContentType.multipart) reqM
        = [Ev.write MULTIPART_SUPPRESSOR] ∧
    p.print_request_body fmt detect req1
        = p.print_body_text fmt (detect req1.headers) (cpString (utf8Lossy b))
            ++ [Ev.write "\n"] ∧
    p.print_request_body fmt detect req2 = [] ∧
    p.print_request_body fmt detect req3 = [] := by
  have h1n' : 0 ∉ b := by simpa using h1n
  have hbad : ¬(0 ∉ b3 ∧ isValidUtf8 b3 = true) := by
    rcases h3bad with h | h
    · have : 0 ∈ b3 := by simpa using h
      exact fun hc => hc.1 this
    · exact fun hc => by rw [hc.2] at h; cases h
  refine ⟨?_, ?_, ?_, ?_⟩
  · simp [Printer.print_request_body]
  · rcases hct : detect req1.headers with _ | ct
    · simp [Printer.print_request_body, hct, h1b, h1n', h1v]
    · cases ct with
      | multipart => exact absurd hct h1ct
      | json => simp [Printer.print_request_body, hct, h1b, h1n', h1v]
      | xml => simp [Printer.print_request_body, hct, h1b, h1n', h1v]
      | html => simp [Printer.print_request_body, hct, h1b, h1n', h1v]
  · rcases hct : detect req2.headers with _ | ct
    · simp [Printer.print_request_body, hct, h2b]
    · cases ct with
      | multipart => exact absurd hct h2ct
      | json => simp [Printer.print_request_body, hct, h2b]
      | xml => simp [Printer.print_request_body, hct, h2b]
      | html => simp [Printer.print_request_body, hct, h2b]
  · rcases hct : detect req3.headers with _ | ct
    · simp only [Printer.print_request_body, hct, h3b]
      simp [hbad]
    · cases ct with
      | multipart => exact absurd hct h3ct
      | json =>
          simp only [Printer.print_request_body, hct, h3b]
          simp [hbad]
      | xml =>
          simp only [Printer.print_request_body, hct, h3b]
          simp [hbad]
      | html =>
          simp only [Printer.print_request_body, hct, h3b]
          simp [hbad]

theorem request_body_rendering_witness :
    (Printer.new none none false ⟨true⟩).print_request_body id
        (fun _ => some ContentType.multipart)
        ⟨"GET", ⟨"/", none, some "example.org", none⟩, "HTTP/1.1", [], none⟩
      = [Ev.write MULTIPART_SUPPRESSOR] ∧
    (Printer.new none none false ⟨true⟩).print_request_body id (fun _ => some ContentType.json)
        ⟨"GET", ⟨"/", none, some "example.org", none⟩, "HTTP/1.1", [], some [123]⟩
      = (Printer.new none none false ⟨true⟩).print_body_text id
          ((fun _ => some ContentType.json) ([] : HeaderMap)) (cpString (utf8Lossy [123]))
        ++ [Ev.write "\n"] ∧
    (Printer.new none none false ⟨true⟩).print_request_body id (fun _ => some ContentType.json)
        ⟨"GET", ⟨"/", none, some "example.org", none⟩, "HTTP/1.1", [], none⟩
      = [] ∧
    (Printer.new none none false ⟨true⟩).print_request_body id (fun _ => some ContentType.json)
        ⟨"GET", ⟨"/", none, some "example.org", none⟩, "HTTP/1.1", [], some [0]⟩
      = [] :=
  request_body_rendering (Printer.new none none false ⟨true⟩) id
    (fun _ => some ContentType.json)
    ⟨"GET", ⟨"/", none, some "example.org", none⟩, "HTTP/1.1", [], none⟩
    ⟨"GET", ⟨"/", none, some "example.org", none⟩, "HTTP/1.1", [], some [123]⟩
    ⟨"GET", ⟨"/", none, some "example.org", none⟩, "HTTP/1.1", [], none⟩
    ⟨"GET", ⟨"/", none, some "example.org", none⟩, "HTTP/1.1", [], some [0]⟩
    [123] [0] rfl (by decide) (by decide) (by decide) rfl (by decide) rfl
    (Or.inl (by decide)) (by decide)

/-- C6 counterexample: with color off, the header block and its two
trailing newlines are written as two separate sink writes, not as one
atomic write. -/
theorem header_block_not_single_write :
    (Printer.mk false false Theme.auto false false ⟨true⟩).print_response_headers
        ⟨"HTTP/1.1", "200 OK", [("date", strBytes "x")], []⟩
      = [Ev.write "HTTP/1.1 200 OK\ndate: x", Ev.write "\n\n"] ∧
    (Printer.mk false false Theme.auto false false ⟨true⟩).print_response_headers
        ⟨"HTTP/1.1", "200 OK", [("date", strBytes "x")], []⟩
      ≠ [Ev.write "HTTP/1.1 200 OK\ndate: x\n\n"] := by
  constructor
  · decide
  · decide

/-- C6 amended: the header block (line plus formatted headers) is passed to
the header writer as one string — a single sink write when color is off —
and the two trailing newlines are then written as one separate write;
rendered body text on the buffered path is followed by exactly one newline;
the non-terminal streaming pass-through appends no trailing newline. -/
theorem header_and_body_framing (ij c sh st : Bool) (th : Theme) (buf : Buffer)
    (tm : Bool) (req : Request) (resp : Response) (fmt : Bytes → Bytes)
    (mimeCharset : String → Option String) (detect : HeaderMap → Option ContentType)
    (hNoNul : (respTextCp mimeCharset resp).contains 0 = false) :
    (Printer.mk ij false th sh st buf).print_request_headers tm req
      = [Ev.write (req.method ++ " " ++ req.url.path ++ queryString req.url.query
          ++ " HTTP/1.1\n" ++ headers_to_string (synthesizeHeaders tm req) sh),
         Ev.write "\n\n"] ∧
    (Printer.mk ij false th sh st buf).print_response_headers resp
      = [Ev.write (resp.version ++ " " ++ resp.status ++ "\n"
          ++ headers_to_string resp.headers sh), Ev.write "\n\n"] ∧
    (Printer.mk ij c th sh false ⟨true⟩).print_response_body fmt mimeCharset detect resp
      = (Printer.mk ij c th sh false ⟨true⟩).print_body_text fmt (detect resp.headers)
          (cpString (respTextCp mimeCharset resp)) ++ [Ev.write "\n"] ∧
    (Printer.mk ij c th sh st ⟨false⟩).print_response_body fmt mimeCharset detect resp
      = (Printer.mk ij c th sh st ⟨false⟩).print_body_stream fmt (detect resp.headers)
          resp.bodyChunks := by
  have hNoNul' : 0 ∉ respTextCp mimeCharset resp := by simpa using hNoNul
  refine ⟨?_, ?_, ?_, ?_⟩
  · simp [Printer.print_request_headers, Printer.print_headers, String.append_assoc]
  · simp [Printer.print_response_headers, Printer.print_headers, String.append_assoc]
  · simp [Printer.print_response_body, hNoNul']
  · simp [Printer.print_response_body]

theorem header_and_body_framing_witness :
    (Printer.mk false false Theme.auto false false ⟨true⟩).print_request_headers false
        ⟨"GET", ⟨"/", none, none, none⟩, "HTTP/1.1", [], none⟩
      = [Ev.write ("GET" ++ " " ++ "/" ++ queryString none ++ " HTTP/1.1\n"
          ++ headers_to_string (synthesizeHeaders false
              ⟨"GET", ⟨"/", none, none, none⟩, "HTTP/1.1", [], none⟩) false),
         Ev.write "\n\n"] ∧
    (Printer.mk false false Theme.auto false false ⟨true⟩).print_response_headers
        ⟨"HTTP/1.1", "200 OK", [], [[65]]⟩
      = [Ev.write ("HTTP/1.1" ++ " " ++ "200 OK" ++ "\n"
          ++ headers_to_string ([] : HeaderMap) false), Ev.write "\n\n"] ∧
    (Printer.mk false false Theme.auto false false ⟨true⟩).print_response_body id
        (fun _ => none) (fun _ => none) ⟨"HTTP/1.1", "200 OK", [], [[65]]⟩
      = (Printer.mk false false Theme.auto false false ⟨true⟩).print_body_text id
          ((fun _ => none) ([] : HeaderMap))
          (cpString (respTextCp (fun _ => none) ⟨"HTTP/1.1", "200 OK", [], [[65]]⟩))
        ++ [Ev.write "\n"] ∧
    (Printer.mk false false Theme.auto false false ⟨false⟩).print_response_body id
        (fun _ => none) (fun _ => none) ⟨"HTTP/1.1", "200 OK", [], [[65]]⟩
      = (Printer.mk false false Theme.auto false false ⟨false⟩).print_body_stream id
          ((fun _ => none) ([] : HeaderMap)) [[65]] :=
  header_and_body_framing false false false false Theme.auto ⟨true⟩ false
    ⟨"GET", ⟨"/", none, none, none⟩, "HTTP/1.1", [], none⟩
    ⟨"HTTP/1.1", "200 OK", [], [[65]]⟩ id (fun _ => none) (fun _ => none) (by decide)

end XhPrinter

